import Mathlib

/-!
Shallow embedding of the Anova BLE client (Home Assistant custom integration
`anova_ble`): the notification accumulator, response parsing, command
encoding and the config-flow address validation, together with theorems
about the specification's claims.

Python reference: `custom_components/anova_ble/ble_client.py`,
`config_flow.py`, `sensor.py`, `climate.py`, `const.py`.
-/

namespace Anova

/-! ### Python string primitives -/

/-- Python `str.strip()`: remove leading and trailing whitespace. -/
def pyStrip (s : String) : String :=
  String.mk (((s.toList.dropWhile Char.isWhitespace).reverse.dropWhile
    Char.isWhitespace).reverse)

/-- Python `str.lower()` (character-wise; ASCII content in this
protocol). -/
def pyLower (s : String) : String := String.mk (s.toList.map Char.toLower)

/-- Python `needle in hay` substring test. -/
def pySub (needle hay : String) : Bool :=
  (List.range (hay.toList.length + 1)).any
    (fun i => needle.toList.isPrefixOf (hay.toList.drop i))

/-! ### Constants from `const.py` -/

def CMD_GET_STATUS : String := "status"
def CMD_READ_TARGET_TEMP : String := "read set temp"
def CMD_READ_CURRENT_TEMP : String := "read temp"
def CMD_READ_UNIT : String := "read unit"
def CMD_SET_TEMP : String := "set temp "
def CMD_SET_TIMER : String := "set timer "
def CMD_START : String := "start"
def CMD_STOP : String := "stop"

def STATUS_TEMP : String := "temp"
def STATUS_TARGET_TEMP : String := "target temp"
def STATUS_TIMER : String := "timer"
def STATUS_RUNNING : String := "running"
def STATUS_UNITS : String := "units"

/-! ### Status dictionary model

Python `dict[str, Any]` values that actually occur: floats (modelled as
rationals), strings and booleans. Insertion order is preserved, as in
Python 3.7+. -/

inductive StatusVal where
  | num (q : ℚ)
  | str (s : String)
  | bool (b : Bool)
deriving DecidableEq

abbrev StatusDict := List (String × StatusVal)

/-- Python `d.get(k)` / `d[k]` lookup. -/
def dictGet (d : StatusDict) (k : String) : Option StatusVal :=
  (d.find? (fun p => p.1 == k)).map (·.2)

/-- Python `d[k] = v`: overwrite in place if present, else append. -/
def dictSet (d : StatusDict) (k : String) (v : StatusVal) : StatusDict :=
  if d.any (fun p => p.1 == k) then
    d.map (fun p => if p.1 == k then (k, v) else p)
  else
    d ++ [(k, v)]

/-- Python `d.update(parsed)`. -/
def dictUpdate (d parsed : StatusDict) : StatusDict :=
  parsed.foldl (fun acc p => dictSet acc p.1 p.2) d

/-! ### Response accumulator (`AnovaBLEClient._notification_handler`) -/

/-- The per-exchange accumulator fields of the client:
`_response_parts` and `_response_data`. -/
structure Accumulator where
  response_parts : List String
  response_data : Option String
deriving DecidableEq

def Accumulator.empty : Accumulator := ⟨[], none⟩

/-- One notification arrival (`_notification_handler`, ble_client.py:76-95):
decode and strip the payload; append it only if non-empty and not an exact
duplicate of an already-seen fragment; on append, re-join all parts with
newline into `_response_data`. -/
def notification_handler (acc : Accumulator) (payload : String) : Accumulator :=
  let response := pyStrip payload
  if response ≠ "" ∧ response ∉ acc.response_parts then
    let parts := acc.response_parts ++ [response]
    { response_parts := parts, response_data := some (String.intercalate "\n" parts) }
  else
    acc

/-- Feed a whole sequence of notification payloads. -/
def feed (acc : Accumulator) (payloads : List String) : Accumulator :=
  payloads.foldl notification_handler acc

/-! ### Number parsing (`_parse_response` temperature branches)

`re.sub(r'[^\d.-]', '', response)` keeps only digits, `.` and `-`;
`float(...)` accepts an optional leading minus, then digits with at most
one decimal point and at least one digit, and raises otherwise. -/

/-- Keep only digits, `.` and `-` (the `re.sub` filter). -/
def stripNonNumeric (s : String) : String :=
  String.mk (s.toList.filter (fun c => c.isDigit || c == '.' || c == '-'))

def digitsToNat (ds : List Char) : ℕ :=
  ds.foldl (fun acc c => 10 * acc + (c.toNat - 48)) 0

/-- Syntactic part of Python `float(s)` for strings drawn from digits, `.`,
`-` (all that can remain after `stripNonNumeric`); `none` models
`ValueError`. The accepted grammar is `-? digits* (. digits*)?` with at
least one digit; the result is the sign flag, integer digits and fraction
digits. -/
def pyFloatParts (s : String) : Option (Bool × List Char × List Char) :=
  let cs := s.toList
  let (neg, body) : Bool × List Char :=
    match cs with
    | '-' :: t => (true, t)
    | _ => (false, cs)
  match body.splitOn '.' with
  | [intPart] =>
      if intPart ≠ [] ∧ intPart.all Char.isDigit then
        some (neg, intPart, [])
      else none
  | [intPart, fracPart] =>
      if (intPart ≠ [] ∨ fracPart ≠ []) ∧ intPart.all Char.isDigit ∧
          fracPart.all Char.isDigit then
        some (neg, intPart, fracPart)
      else none
  | _ => none

/-- Numeric value of a parsed float. -/
def ratOfParts : Bool × List Char × List Char → ℚ
  | (neg, intPart, fracPart) =>
      (if neg then -1 else 1) *
        ((digitsToNat intPart : ℚ) + (digitsToNat fracPart : ℚ) / 10 ^ fracPart.length)

/-- Python `float(s)` on post-filter strings. -/
def pyFloat (s : String) : Option ℚ := (pyFloatParts s).map ratOfParts

/-! ### Response parsing (`AnovaBLEClient._parse_response`) -/

/-- Fahrenheit to Celsius, as written in the source: `(v - 32) * 5 / 9`. -/
def fToC (v : ℚ) : ℚ := (v - 32) * 5 / 9

/-- Celsius to Fahrenheit, as written in `climate.py`: `(v * 9 / 5) + 32`. -/
def cToF (v : ℚ) : ℚ := v * 9 / 5 + 32

/-- `_parse_response(command, response)` (ble_client.py:354-402). Reads the
cached unit from `self._status` to decide Fahrenheit conversion; returns the
dict of newly parsed fields. -/
def parse_response (status : StatusDict) (command response0 : String) : StatusDict :=
  let response := pyStrip response0
  if command = CMD_GET_STATUS then
    if pySub "running" (pyLower response) then [(STATUS_RUNNING, .bool true)]
    else if pySub "stopped" (pyLower response) then [(STATUS_RUNNING, .bool false)]
    else []
  else if command = CMD_READ_TARGET_TEMP then
    let temp_str := stripNonNumeric response
    if temp_str ≠ "" then
      match pyFloat temp_str with
      | some v =>
          let v' := if dictGet status STATUS_UNITS = some (.str "F") then fToC v else v
          [(STATUS_TARGET_TEMP, .num v')]
      | none => []
    else []
  else if command = CMD_READ_CURRENT_TEMP then
    let temp_str := stripNonNumeric response
    if temp_str ≠ "" then
      match pyFloat temp_str with
      | some v =>
          let v' := if dictGet status STATUS_UNITS = some (.str "F") then fToC v else v
          [(STATUS_TEMP, .num v')]
      | none => []
    else []
  else if command = CMD_READ_UNIT then
    if pySub "f" (pyLower response) then [(STATUS_UNITS, .str "F")]
    else [(STATUS_UNITS, .str "C")]
  else []

/-! ### Spec-side description of the accumulator -/

/-- The stripped, non-empty payloads in arrival order. -/
def cleaned (payloads : List String) : List String :=
  (payloads.map pyStrip).filter (· ≠ "")

/-- The distinct elements of a list in first-occurrence order. -/
def firstDistinct : List String → List String
  | [] => []
  | x :: xs => x :: firstDistinct (xs.filter (· ≠ x))
termination_by l => l.length
decreasing_by
  simp only [List.length_cons]
  exact Nat.lt_succ_of_le (List.length_filter_le _ _)

/-! ### The response-wait loop of `_send_command` (ble_client.py:275-342)

Time is modelled by exact rationals. The loop repeatedly waits up to 200 ms
for the notification event; when the wait times out it runs the completion
checks. We model the loop as a sequence of events: fragment observations
(which run `_notification_handler` and set `last_data_time`) and timed-out
waits (ticks, which run the completion checks). -/

/-- `no_data_timeout = 3.0 if is_status_cmd else 1.0` (line 279): the
silence window. -/
def no_data_timeout (is_status_cmd : Bool) : ℚ :=
  if is_status_cmd then 3 else 1

/-- `min_wait_time = 1.5 if is_status_cmd else 0.5` (line 280): the minimum
total wait. -/
def min_wait_time (is_status_cmd : Bool) : ℚ :=
  if is_status_cmd then 3/2 else 1/2

/-- How one pass of the completion checks resolves. -/
inductive TickOutcome where
  /-- Return of the accumulated text as the complete response
  (lines 303-306 and 311-313). -/
  | complete (r : String)
  /-- Overall timeout with accumulated data: the incomplete text is
  returned (lines 319-321). -/
  | truncated (r : String)
  /-- Overall timeout with no accumulated data: `break` to the direct-read
  fallback (line 322). -/
  | fallback
  /-- Keep looping (line 325). -/
  | waiting
deriving DecidableEq

/-- The completion checks run when no notification arrived in the last
200 ms interval (the `except asyncio.TimeoutError` branch, lines 291-325).
Python truthiness of `self._response_data` is the `d ≠ ""` test. -/
def send_tick (is_status_cmd : Bool) (timeout start_time : ℚ)
    (response_data : Option String) (last_data_time : Option ℚ) (now : ℚ) :
    TickOutcome :=
  let elapsed := now - start_time
  let overallTimeoutCheck : TickOutcome :=
    if elapsed ≥ timeout then
      match response_data with
      | some d => if d ≠ "" then .truncated d else .fallback
      | none => .fallback
    else .waiting
  match response_data with
  | some d =>
      if d ≠ "" then
        match last_data_time with
        | some l =>
            if now - l ≥ no_data_timeout is_status_cmd ∧
                elapsed ≥ min_wait_time is_status_cmd then
              .complete d
            else overallTimeoutCheck
        | none =>
            if elapsed ≥ min_wait_time is_status_cmd ∧ ¬ is_status_cmd then
              .complete d
            else overallTimeoutCheck
      else overallTimeoutCheck
  | none => overallTimeoutCheck

/-- The mutable state read by the wait loop: the accumulator fields plus
`last_data_time`. -/
structure WaitState where
  acc : Accumulator
  last_data_time : Option ℚ
deriving DecidableEq

/-- The state at loop entry (lines 260-262, 276). -/
def WaitState.init : WaitState := ⟨Accumulator.empty, none⟩

/-- One event inside the wait loop. -/
inductive LoopEv where
  /-- A notification arrived and the event wait returned at `time`
  (lines 287-289): the handler has run, and `last_data_time` is set. -/
  | frag (payload : String) (time : ℚ)
  /-- A notification whose arrival the loop never observes through the
  event wait: the handler runs (accumulating the payload) in the window
  between the event wait's timeout firing and the loop body resuming, so
  `last_data_time` is *not* updated. This is the interleaving that makes
  the `last_data_time is None` completion branch of lines 307-313
  reachable with accumulated data. -/
  | lateFrag (payload : String)
  /-- The 200 ms event wait timed out at `time`: the completion checks
  run. -/
  | tick (time : ℚ)

/-- Effect of an observed notification arrival on the loop state: the
handler accumulates the payload and the loop records the observation time
(line 289). The notification event is set even for duplicate or empty
payloads (lines 92-93), so an observed arrival always refreshes
`last_data_time`. -/
def applyFrag (st : WaitState) (payload : String) (time : ℚ) : WaitState :=
  ⟨notification_handler st.acc payload, some time⟩

/-- Effect of an unobserved (late) notification: the handler accumulates
the payload but the loop records no arrival time. -/
def applyLateFrag (st : WaitState) (payload : String) : WaitState :=
  ⟨notification_handler st.acc payload, st.last_data_time⟩

/-- Run the wait loop over a sequence of events until a tick resolves it;
returns the outcome, the state and the time of the resolving tick. -/
def run_wait (is_status_cmd : Bool) (timeout start_time : ℚ) :
    WaitState → List LoopEv → Option (TickOutcome × WaitState × ℚ)
  | _, [] => none
  | st, .frag p t :: evs =>
      run_wait is_status_cmd timeout start_time (applyFrag st p t) evs
  | st, .lateFrag p :: evs =>
      run_wait is_status_cmd timeout start_time (applyLateFrag st p) evs
  | st, .tick t :: evs =>
      let out := send_tick is_status_cmd timeout start_time
        st.acc.response_data st.last_data_time t
      if out = .waiting then run_wait is_status_cmd timeout start_time st evs
      else some (out, st, t)

/-- The value `_send_command` produces from the wait loop together with the
number of direct characteristic reads performed: a completed or truncated
response is returned as is (0 reads); on `fallback` one direct read is
attempted and its decoded, stripped text returned, `none` if it failed
(lines 330-342). -/
def send_command_wait_result (is_status_cmd : Bool) (timeout start_time : ℚ)
    (evs : List LoopEv) (read_result : Option String) :
    Option (Option String × ℕ) :=
  match run_wait is_status_cmd timeout start_time WaitState.init evs with
  | some (.complete r, _, _) => some (some r, 0)
  | some (.truncated r, _, _) => some (some r, 0)
  | some (.fallback, _, _) => some (read_result.map pyStrip, 1)
  | some (.waiting, _, _) => none
  | none => none

/-! ### Cleanup of the exchange state (`_send_command`, lines 257-352) -/

/-- The client fields touched by `_send_command` while holding the lock. -/
structure ClientState where
  connected : Bool
  response_event : Option Bool
  response_data : Option String
  response_parts : List String
deriving DecidableEq

/-- How the `try` body of the locked exchange resolves. -/
inductive ExchangeResolution where
  /-- The wait loop returned text (complete, or truncated on overall
  timeout). -/
  | returned (r : String)
  /-- Hard timeout with nothing accumulated: direct-read fallback, which
  itself may fail (`none`). -/
  | fallbackRead (r : Option String)
  /-- An exception escaped; the flag records whether its message mentions
  "not connected"/"disconnect" (line 346). -/
  | raised (notConnectedErr : Bool)

/-- The `try` body under the lock: initializes the exchange fields
(lines 260-262), runs the exchange during which the accumulator reaches
`acc`, and resolves as `res`. Returns the result and the client state
*before* the `finally` clause. -/
def send_command_try (st : ClientState) (acc : Accumulator)
    (res : ExchangeResolution) : Option String × ClientState :=
  let stMid : ClientState :=
    { st with
      response_event := some true
      response_data := acc.response_data
      response_parts := acc.response_parts }
  match res with
  | .returned r => (some r, stMid)
  | .fallbackRead r => (r.map pyStrip, stMid)
  | .raised ncErr =>
      (none, if ncErr then { stMid with connected := false } else stMid)

/-- The `finally` clause (lines 349-352): clear the exchange fields. -/
def send_command_finally (p : Option String × ClientState) :
    Option String × ClientState :=
  (p.1, { p.2 with
    response_event := none
    response_data := none
    response_parts := [] })

/-- The whole locked section of `_send_command`: body then `finally`. -/
def send_command_locked (st : ClientState) (acc : Accumulator)
    (res : ExchangeResolution) : Option String × ClientState :=
  send_command_finally (send_command_try st acc res)

/-! ### Entry of `_send_command` (lines 247-255) -/

/-- The `retries` argument of the reconnect attempt. -/
def reconnectRetries : ℕ := 1

/-- The `timeout` argument of the reconnect attempt. -/
def reconnectTimeout : ℚ := 5

/-- Observable effects of one `_send_command` invocation at its entry:
how many reconnect attempts were made, how many times the command was
written to the characteristic, and the result. -/
structure SendTrace where
  reconnect_calls : ℕ
  command_writes : ℕ
  result : Option String
deriving DecidableEq

/-- Entry logic of `_send_command`: if not connected, call
`connect(retries=1, timeout=5.0)` once; if still not connected, fail with
`None` without sending. Otherwise the command is written exactly once and
the locked exchange produces the result. -/
def send_command_entry (connected0 reconnectOk : Bool)
    (exchange : Option String) : SendTrace :=
  if connected0 then
    { reconnect_calls := 0, command_writes := 1, result := exchange }
  else if reconnectOk then
    { reconnect_calls := 1, command_writes := 1, result := exchange }
  else
    { reconnect_calls := 1, command_writes := 0, result := none }

/-! ### Command encoding (`set_temperature`, `_send_command` write) -/

/-- Round a rational to the nearest integer, ties to even (the rounding of
Python's `format(x, '.1f')` on the exact value). -/
def roundHalfEven (q : ℚ) : ℤ :=
  let f := ⌊q⌋
  let r := q - f
  if r < 1/2 then f
  else if r > 1/2 then f + 1
  else if f % 2 = 0 then f else f + 1

/-- Python `f"{x:.1f}"` on an exact rational. -/
def formatFix1 (q : ℚ) : String :=
  let n := roundHalfEven (10 * q)
  (if n < 0 then "-" else "") ++ toString (n.natAbs / 10) ++ "." ++
    toString (n.natAbs % 10)

/-- `AnovaBLEClient.set_temperature` command text (line 453):
`f"{CMD_SET_TEMP}{temperature:.1f}"`. -/
def set_temperature_command (temperature : ℚ) : String :=
  CMD_SET_TEMP ++ formatFix1 temperature

/-- `_send_command` appends the carriage-return terminator before writing
(line 266). -/
def command_with_terminator (command : String) : String := command ++ "\r"

/-- `AnovaClimate.async_set_temperature` unit handling (climate.py:122-128):
read the cached unit (default "C") and convert the Celsius target to device
units via `(target * 9 / 5) + 32` when the unit is Fahrenheit. -/
def async_set_temperature_target (status : StatusDict) (target : ℚ) : ℚ :=
  if (dictGet status STATUS_UNITS).getD (.str "C") = .str "F" then cToF target
  else target

/-- The full outbound wire text produced by the climate entity's
set-temperature operation. -/
def climate_set_temperature_wire (status : StatusDict) (target : ℚ) : String :=
  command_with_terminator
    (set_temperature_command (async_set_temperature_target status target))

/-! ### Entity accessors (sensor.py, climate.py) -/

/-- `AnovaTemperatureSensor.native_value` (sensor.py:123-136) and
`AnovaClimate.current_temperature` (climate.py:72-88), which are the same
expression: read the cached unit (default "C") and the cached temperature,
and convert `(temp - 32) * 5 / 9` when the unit is "F". The cached
temperature is always a number when present. -/
def native_value (status : StatusDict) : Option ℚ :=
  let units := (dictGet status STATUS_UNITS).getD (.str "C")
  match dictGet status STATUS_TEMP with
  | some (.num t) => some (if units = .str "F" then fToC t else t)
  | _ => none

/-- `AnovaTargetTemperatureSensor.native_value` (sensor.py:153-166) and
`AnovaClimate.target_temperature` (climate.py:90-106): same, on the target
temperature key. -/
def target_temperature (status : StatusDict) : Option ℚ :=
  let units := (dictGet status STATUS_UNITS).getD (.str "C")
  match dictGet status STATUS_TARGET_TEMP with
  | some (.num t) => some (if units = .str "F" then fToC t else t)
  | _ => none

/-- The cache-update sequence of `get_status` (ble_client.py:415-441): four
exchanges (`read unit`, `status`, `read set temp`, `read temp`) in order;
each non-`none`, non-empty reply is parsed against the *current* cache and
merged into it; a failed exchange (`none`) leaves the cache untouched. -/
def get_status_updates (st0 : StatusDict)
    (unitReply statusReply targetReply tempReply : Option String) :
    StatusDict :=
  let st1 := match unitReply with
    | some r => dictUpdate st0 (parse_response st0 CMD_READ_UNIT r)
    | none => st0
  let st2 := match statusReply with
    | some r => dictUpdate st1 (parse_response st1 CMD_GET_STATUS r)
    | none => st1
  let st3 := match targetReply with
    | some r => dictUpdate st2 (parse_response st2 CMD_READ_TARGET_TEMP r)
    | none => st2
  match tempReply with
  | some r => dictUpdate st3 (parse_response st3 CMD_READ_CURRENT_TEMP r)
  | none => st3

/-- The cache after the device (set to Fahrenheit) reports unit "f" and a
current temperature of 140.0 °F. -/
def statusFromF140 : StatusDict :=
  get_status_updates [] (some "f") none none (some "140.0")

/-! ### Address validation (`AnovaBLEConfigFlow.async_step_manual`,
config_flow.py:109-133) -/

/-- Python `str.upper()` (character-wise; the protocol addresses are
ASCII). -/
def pyUpper (s : String) : String := String.mk (s.toList.map Char.toUpper)

/-- The uppercase hexadecimal digits accepted by the validation. -/
def HEXDIGITS : List Char := "0123456789ABCDEF".toList

/-- `address_clean`: the uppercased, stripped input with `:`, `-` and
space removed (config_flow.py:110-114). -/
def cleanAddress (address : String) : List Char :=
  (pyUpper (pyStrip address)).toList.filter
    (fun c => !(c == ':') && !(c == '-') && !(c == ' '))

/-- `":".join(address_clean[i:i+2] for i in range(0, 12, 2))` applied to a
12-character clean address: consecutive byte pairs. -/
def chunkPairs : List Char → List String
  | a :: b :: rest => String.mk [a, b] :: chunkPairs rest
  | [a] => [String.mk [a]]
  | [] => []

/-- The manual-entry validation: `none` models setting
`errors[CONF_ADDRESS] = "invalid_address"` (no entry is created); `some f`
is the canonical formatted address stored in the created entry. No
transport operation occurs in either case. -/
def async_step_manual_validate (address : String) : Option String :=
  let clean := cleanAddress address
  if clean = [] ∨ clean.length ≠ 12 then none
  else if ¬ clean.all (fun c => HEXDIGITS.contains c) then none
  else some (String.intercalate ":" (chunkPairs clean))

/-! ### Dict copying (`get_status` / `status`, ble_client.py:404-449)

Python dicts are heap objects; `copy()` allocates a fresh one. The heap is
a list of dict cells, a reference an index. -/

structure Heap where
  cells : List StatusDict
deriving DecidableEq

/-- Dereference. -/
def Heap.get (h : Heap) (r : ℕ) : StatusDict := h.cells.getD r []

/-- `d.copy()`: allocate a fresh cell holding the same contents. -/
def Heap.copyAlloc (h : Heap) (r : ℕ) : Heap × ℕ :=
  (⟨h.cells ++ [h.get r]⟩, h.cells.length)

/-- `d[k] = v` on the dict at reference `r` (a caller-side mutation). -/
def Heap.setKey (h : Heap) (r : ℕ) (k : String) (v : StatusVal) : Heap :=
  ⟨h.cells.set r (dictSet (h.get r) k v)⟩

/-- `get_status` with the cache at `statusRef`: when unreachable, return
`self._status.copy()` (line 413); otherwise refresh the cache in place
with the parsed updates (lines 417-441, abstracted as `updates`) and
return `self._status.copy()` (line 444). Either way the returned
reference is freshly allocated. -/
def get_status_model (h : Heap) (statusRef : ℕ) (reachable : Bool)
    (updates : StatusDict) : Heap × ℕ :=
  if reachable then
    let h' : Heap := ⟨h.cells.set statusRef (dictUpdate (h.get statusRef) updates)⟩
    h'.copyAlloc statusRef
  else
    h.copyAlloc statusRef

/-- The `status` property (lines 446-449): `self._status.copy()`. -/
def status_property (h : Heap) (statusRef : ℕ) : Heap × ℕ :=
  h.copyAlloc statusRef

/-- Invariant of the accumulator fields of an exchange: either nothing has
been accumulated, or the parts are non-empty strings and `_response_data`
is their newline join. -/
def AccInv (acc : Accumulator) : Prop :=
  (acc.response_parts = [] ∧ acc.response_data = none) ∨
    (acc.response_parts ≠ [] ∧ (∀ p ∈ acc.response_parts, p ≠ "") ∧
      acc.response_data = some (String.intercalate "\n" acc.response_parts))

end Anova

/-! ## Helper lemmas -/

namespace Anova

lemma parse_target_some (st : StatusDict) (resp : String) (v : ℚ)
    (h : pyFloat (stripNonNumeric (pyStrip resp)) = some v) :
    parse_response st CMD_READ_TARGET_TEMP resp =
      [(STATUS_TARGET_TEMP,
        .num (if dictGet st STATUS_UNITS = some (.str "F") then fToC v else v))] := by
  have h1 : ¬ (CMD_READ_TARGET_TEMP = CMD_GET_STATUS) := by decide
  have hne : stripNonNumeric (pyStrip resp) ≠ "" := by
    intro he
    rw [he] at h
    simp [pyFloat, pyFloatParts] at h
  rw [parse_response]
  rw [if_neg h1, if_pos rfl, if_pos hne, h]

lemma parse_target_none (st : StatusDict) (resp : String)
    (h : pyFloat (stripNonNumeric (pyStrip resp)) = none) :
    parse_response st CMD_READ_TARGET_TEMP resp = [] := by
  have h1 : ¬ (CMD_READ_TARGET_TEMP = CMD_GET_STATUS) := by decide
  rw [parse_response, if_neg h1, if_pos rfl]
  by_cases hne : stripNonNumeric (pyStrip resp) = ""
  · rw [if_neg (by simp [hne])]
  · rw [if_pos hne, h]

lemma parse_current_some (st : StatusDict) (resp : String) (v : ℚ)
    (h : pyFloat (stripNonNumeric (pyStrip resp)) = some v) :
    parse_response st CMD_READ_CURRENT_TEMP resp =
      [(STATUS_TEMP,
        .num (if dictGet st STATUS_UNITS = some (.str "F") then fToC v else v))] := by
  have h1 : ¬ (CMD_READ_CURRENT_TEMP = CMD_GET_STATUS) := by decide
  have h2 : ¬ (CMD_READ_CURRENT_TEMP = CMD_READ_TARGET_TEMP) := by decide
  have hne : stripNonNumeric (pyStrip resp) ≠ "" := by
    intro he
    rw [he] at h
    simp [pyFloat, pyFloatParts] at h
  rw [parse_response, if_neg h1, if_neg h2, if_pos rfl, if_pos hne, h]

lemma parse_current_none (st : StatusDict) (resp : String)
    (h : pyFloat (stripNonNumeric (pyStrip resp)) = none) :
    parse_response st CMD_READ_CURRENT_TEMP resp = [] := by
  have h1 : ¬ (CMD_READ_CURRENT_TEMP = CMD_GET_STATUS) := by decide
  have h2 : ¬ (CMD_READ_CURRENT_TEMP = CMD_READ_TARGET_TEMP) := by decide
  rw [parse_response, if_neg h1, if_neg h2, if_pos rfl]
  by_cases hne : stripNonNumeric (pyStrip resp) = ""
  · rw [if_neg (by simp [hne])]
  · rw [if_pos hne, h]

lemma pyFloat_225 : pyFloat (stripNonNumeric (pyStrip "22.5")) = some (45/2) := by
  have h : pyFloatParts (stripNonNumeric (pyStrip "22.5")) =
      some (false, ['2','2'], ['5']) := by decide
  rw [pyFloat, h]
  simp only [Option.map_some', ratOfParts]
  have h2 : digitsToNat ['2','2'] = 22 := by decide
  have h5 : digitsToNat ['5'] = 5 := by decide
  rw [h2, h5]
  norm_num

lemma pyFloat_1400 : pyFloat (stripNonNumeric (pyStrip "140.0")) = some (140 : ℚ) := by
  have h : pyFloatParts (stripNonNumeric (pyStrip "140.0")) =
      some (false, ['1','4','0'], ['0']) := by decide
  rw [pyFloat, h]
  simp only [Option.map_some', ratOfParts]
  have h2 : digitsToNat ['1','4','0'] = 140 := by decide
  have h5 : digitsToNat ['0'] = 0 := by decide
  rw [h2, h5]
  norm_num

lemma statusFromF140_eq :
    statusFromF140 = [(STATUS_UNITS, .str "F"), (STATUS_TEMP, .num 60)] := by
  have e1 : dictUpdate ([] : StatusDict) (parse_response [] CMD_READ_UNIT "f") =
      [(STATUS_UNITS, .str "F")] := by decide
  have e2 : parse_response [(STATUS_UNITS, .str "F")] CMD_READ_CURRENT_TEMP "140.0" =
      [(STATUS_TEMP, .num (fToC 140))] := by
    rw [parse_current_some _ _ _ pyFloat_1400, if_pos (by decide)]
  have hconv : fToC (140 : ℚ) = 60 := by rw [fToC]; norm_num
  rw [statusFromF140, get_status_updates]
  rw [e1, e2, hconv]
  rw [dictUpdate]
  simp only [List.foldl_cons, List.foldl_nil]
  rw [dictSet, if_neg (by decide)]
  rfl

lemma notification_handler_eq_append (acc : Accumulator) (d : String)
    (h1 : pyStrip d ≠ "") (h2 : pyStrip d ∉ acc.response_parts) :
    notification_handler acc d =
      { response_parts := acc.response_parts ++ [pyStrip d]
        response_data :=
          some (String.intercalate "\n" (acc.response_parts ++ [pyStrip d])) } := by
  rw [notification_handler, if_pos ⟨h1, h2⟩]

lemma notification_handler_noop (acc : Accumulator) (d : String)
    (h : pyStrip d = "" ∨ pyStrip d ∈ acc.response_parts) :
    notification_handler acc d = acc := by
  rw [notification_handler, if_neg]
  rintro ⟨h1, h2⟩
  rcases h with h | h
  · exact h1 h
  · exact h2 h

lemma firstDistinct_cons (x : String) (xs : List String) :
    firstDistinct (x :: xs) = x :: firstDistinct (xs.filter (· ≠ x)) := by
  rw [firstDistinct]

lemma mem_firstDistinct (a : String) : ∀ l : List String,
    a ∈ firstDistinct l ↔ a ∈ l := by
  intro l
  induction l using firstDistinct.induct with
  | case1 => simp [firstDistinct]
  | case2 x xs ih =>
      rw [firstDistinct_cons]
      by_cases hax : a = x
      · simp [hax]
      · simp only [List.mem_cons, hax, false_or, ih, List.mem_filter]
        simp [hax]

lemma firstDistinct_eq_nil_iff (l : List String) :
    firstDistinct l = [] ↔ l = [] := by
  cases l with
  | nil => simp [firstDistinct]
  | cons x xs => rw [firstDistinct_cons]; simp

lemma cleaned_nil : cleaned [] = [] := rfl

lemma cleaned_cons (d : String) (ps : List String) :
    cleaned (d :: ps) =
      if pyStrip d = "" then cleaned ps else pyStrip d :: cleaned ps := by
  by_cases h : pyStrip d = "" <;> simp [cleaned, List.filter_cons, h]

lemma filter_notmem_concat (l parts : List String) (r : String) :
    l.filter (fun s => s ∉ parts ++ [r]) =
      (l.filter (fun s => s ∉ parts)).filter (fun s => s ≠ r) := by
  rw [List.filter_filter]
  apply List.filter_congr
  intro a _
  rw [show (decide (a ∉ parts ++ [r])) =
      decide ((a ≠ r) ∧ (a ∉ parts)) from by
    simp [List.mem_append, not_or, and_comm]]
  simp

lemma feed_parts (ps : List String) : ∀ acc : Accumulator,
    (feed acc ps).response_parts =
      acc.response_parts ++
        firstDistinct ((cleaned ps).filter (fun s => s ∉ acc.response_parts)) := by
  induction ps with
  | nil => intro acc; simp [feed, cleaned_nil, firstDistinct]
  | cons d ps ih =>
      intro acc
      show (feed (notification_handler acc d) ps).response_parts = _
      by_cases h1 : pyStrip d = ""
      · rw [notification_handler_noop acc d (Or.inl h1), cleaned_cons, if_pos h1]
        exact ih acc
      · by_cases h2 : pyStrip d ∈ acc.response_parts
        · rw [notification_handler_noop acc d (Or.inr h2), cleaned_cons, if_neg h1]
          rw [List.filter_cons]
          rw [show (decide (pyStrip d ∉ acc.response_parts)) = false by simp [h2]]
          rw [if_neg (by simp)]
          exact ih acc
        · rw [notification_handler_eq_append acc d h1 h2, ih]
          simp only []
          rw [cleaned_cons, if_neg h1]
          rw [List.filter_cons]
          rw [show (decide (pyStrip d ∉ acc.response_parts)) = true by simp [h2]]
          rw [if_pos rfl, firstDistinct_cons]
          rw [filter_notmem_concat]
          simp [List.append_assoc]

lemma feed_data_inv : ∀ (ps : List String) (acc : Accumulator),
    ((acc.response_parts = [] ∧ acc.response_data = none) ∨
      (acc.response_parts ≠ [] ∧
        acc.response_data = some (String.intercalate "\n" acc.response_parts))) →
    (((feed acc ps).response_parts = [] ∧ (feed acc ps).response_data = none) ∨
      ((feed acc ps).response_parts ≠ [] ∧
        (feed acc ps).response_data =
          some (String.intercalate "\n" (feed acc ps).response_parts))) := by
  intro ps
  induction ps with
  | nil => intro acc h; exact h
  | cons d ps ih =>
      intro acc h
      show ((feed (notification_handler acc d) ps).response_parts = [] ∧ _) ∨ _
      apply ih
      by_cases h1 : pyStrip d = ""
      · rw [notification_handler_noop acc d (Or.inl h1)]; exact h
      · by_cases h2 : pyStrip d ∈ acc.response_parts
        · rw [notification_handler_noop acc d (Or.inr h2)]; exact h
        · rw [notification_handler_eq_append acc d h1 h2]
          right
          exact ⟨by simp, rfl⟩

lemma filter_notmem_nil (l : List String) :
    l.filter (fun s => s ∉ ([] : List String)) = l := by
  induction l with
  | nil => rfl
  | cons a l ih => simp [List.filter_cons, ih]

lemma feed_empty_parts (ps : List String) :
    (feed Accumulator.empty ps).response_parts = firstDistinct (cleaned ps) := by
  rw [feed_parts]
  show [] ++ firstDistinct ((cleaned ps).filter (fun s => s ∉ ([] : List String))) = _
  rw [List.nil_append, filter_notmem_nil]

lemma intercalate_go_length (as : List String) (acc s : String) :
    acc.length ≤ (String.intercalate.go acc s as).length := by
  induction as generalizing acc with
  | nil => rw [String.intercalate.go]
  | cons a as ih =>
      rw [String.intercalate.go]
      calc acc.length ≤ (acc ++ s ++ a).length := by
            rw [String.length_append, String.length_append]; omega
        _ ≤ _ := ih (acc ++ s ++ a)

lemma intercalate_cons_ne_empty (r : String) (hr : r ≠ "") (rest : List String) :
    String.intercalate "\n" (r :: rest) ≠ "" := by
  intro h
  have h1 : r.length ≤ (String.intercalate "\n" (r :: rest)).length := by
    rw [String.intercalate]
    exact intercalate_go_length rest r "\n"
  rw [h] at h1
  have h0 : ("" : String).length = 0 := rfl
  rw [h0, Nat.le_zero] at h1
  apply hr
  apply String.ext
  rw [show r.length = r.data.length from rfl] at h1
  rw [List.length_eq_zero.mp h1]

lemma accInv_empty : AccInv Accumulator.empty := Or.inl ⟨rfl, rfl⟩

lemma accInv_handler (acc : Accumulator) (d : String) (h : AccInv acc) :
    AccInv (notification_handler acc d) := by
  by_cases h1 : pyStrip d = ""
  · rw [notification_handler_noop acc d (Or.inl h1)]; exact h
  · by_cases h2 : pyStrip d ∈ acc.response_parts
    · rw [notification_handler_noop acc d (Or.inr h2)]; exact h
    · rw [notification_handler_eq_append acc d h1 h2]
      right
      refine ⟨by simp, ?_, rfl⟩
      intro p hp
      rcases List.mem_append.mp hp with hp | hp
      · rcases h with ⟨hnil, -⟩ | ⟨-, hall, -⟩
        · rw [hnil] at hp; cases hp
        · exact hall p hp
      · rw [List.mem_singleton.mp hp]; exact h1

lemma accInv_data_ne_empty (acc : Accumulator) (h : AccInv acc) (s : String)
    (hs : acc.response_data = some s) : s ≠ "" := by
  rcases h with ⟨-, hn⟩ | ⟨hne, hall, hd⟩
  · rw [hn] at hs; cases hs
  · rw [hd] at hs
    rcases hp : acc.response_parts with _ | ⟨p, rest⟩
    · exact absurd hp hne
    · rw [hp] at hs
      rw [← Option.some_inj.mp hs]
      exact intercalate_cons_ne_empty p (hall p (hp ▸ List.mem_cons_self p rest)) rest

lemma accInv_data_none (acc : Accumulator) (h : AccInv acc)
    (hn : acc.response_data = none) : acc.response_parts = [] := by
  rcases h with ⟨hnil, -⟩ | ⟨-, -, hd⟩
  · exact hnil
  · rw [hd] at hn; cases hn

lemma send_tick_cases (is_status : Bool) (timeout start : ℚ)
    (rd : Option String) (lt : Option ℚ) (now : ℚ) :
    (∀ r, send_tick is_status timeout start rd lt now = .complete r →
      rd = some r ∧ r ≠ "" ∧
      ((∃ l, lt = some l ∧ now - l ≥ no_data_timeout is_status ∧
          now - start ≥ min_wait_time is_status) ∨
        (lt = none ∧ now - start ≥ min_wait_time is_status ∧ is_status = false))) ∧
    (∀ r, send_tick is_status timeout start rd lt now = .truncated r →
      rd = some r ∧ r ≠ "" ∧ now - start ≥ timeout) ∧
    (send_tick is_status timeout start rd lt now = .fallback →
      (rd = none ∨ rd = some "") ∧ now - start ≥ timeout) := by
  cases is_status <;> rcases rd with _ | d <;> rcases lt with _ | l <;>
    refine ⟨fun r h => ?_, fun r h => ?_, fun h => ?_⟩ <;>
    · rw [send_tick] at h
      split_ifs at h <;> simp_all

lemma run_wait_spec (is_status : Bool) (timeout start : ℚ) :
    ∀ (evs : List LoopEv) (st : WaitState),
      AccInv st.acc →
      ∀ (out : TickOutcome) (st' : WaitState) (t : ℚ),
        run_wait is_status timeout start st evs = some (out, st', t) →
        AccInv st'.acc ∧
        out = send_tick is_status timeout start st'.acc.response_data
          st'.last_data_time t ∧
        out ≠ .waiting := by
  intro evs
  induction evs with
  | nil => intro st _ out st' t h; cases h
  | cons ev evs ih =>
      intro st hinv out st' t h
      cases ev with
      | frag p tf =>
          rw [run_wait] at h
          exact ih (applyFrag st p tf) (accInv_handler st.acc p hinv) out st' t h
      | lateFrag p =>
          rw [run_wait] at h
          exact ih (applyLateFrag st p) (accInv_handler st.acc p hinv) out st' t h
      | tick tt =>
          rw [run_wait] at h
          by_cases hw : send_tick is_status timeout start st.acc.response_data
              st.last_data_time tt = .waiting
          · rw [if_pos hw] at h
            exact ih st hinv out st' t h
          · rw [if_neg hw] at h
            rw [Option.some_inj] at h
            have h1 := congrArg Prod.fst h
            have h2 := congrArg (fun x : TickOutcome × WaitState × ℚ => x.2.1) h
            have h3 := congrArg (fun x : TickOutcome × WaitState × ℚ => x.2.2) h
            simp only [] at h1 h2 h3
            rw [← h1, ← h2, ← h3]
            exact ⟨hinv, rfl, hw⟩

end Anova

/-! ## Claim theorems -/

namespace Anova

/-- Claim C1. The spec's invariant says the Fahrenheit-to-Celsius
conversion `(v-32)*5/9` is applied exactly once to a raw device reading
and never re-applied. The code violates this: with the device in
Fahrenheit reporting 140.0 °F, `_parse_response` caches the
already-converted Celsius value 60, but the entity accessor
(`native_value` / `current_temperature`) converts the cached value again
and returns 140/9 ≈ 15.56 instead of 60. -/
theorem C1_entity_double_converts_cached_celsius :
    dictGet statusFromF140 STATUS_TEMP = some (.num 60) ∧
    native_value statusFromF140 = some (140/9) ∧
    (140/9 : ℚ) ≠ 60 := by
  have hget : dictGet statusFromF140 STATUS_TEMP = some (.num 60) := by
    rw [statusFromF140_eq, dictGet]
    rw [List.find?]
    rw [show (((STATUS_UNITS, StatusVal.str "F")).1 == STATUS_TEMP) = false by decide]
    rw [List.find?]
    rw [show (((STATUS_TEMP, StatusVal.num 60)).1 == STATUS_TEMP) = true by decide]
    rfl
  have hunits : (dictGet statusFromF140 STATUS_UNITS).getD (.str "C") =
      StatusVal.str "F" := by
    rw [statusFromF140_eq]
    decide
  refine ⟨hget, ?_, by norm_num⟩
  rw [native_value]
  rw [hget, hunits]
  show some (if StatusVal.str "F" = StatusVal.str "F" then fToC 60 else 60) =
    some (140/9)
  rw [if_pos rfl, fToC]
  norm_num

/-- Claim C2. Setting a target of 60.0 °C through the climate entity while
the cached unit is Fahrenheit converts the value to 140.0 via
`(v * 9 / 5) + 32` before encoding and emits exactly
`"set temp 140.0\r"`, the carriage return appended by `_send_command`. -/
theorem C2_set_temperature_wire_command :
    async_set_temperature_target [(STATUS_UNITS, .str "F")] 60 = 140 ∧
    climate_set_temperature_wire [(STATUS_UNITS, .str "F")] 60 =
      "set temp 140.0\r" := by
  have hcond : (dictGet [(STATUS_UNITS, StatusVal.str "F")] STATUS_UNITS).getD
      (.str "C") = StatusVal.str "F" := by decide
  have ht : async_set_temperature_target [(STATUS_UNITS, .str "F")] 60 = 140 := by
    rw [async_set_temperature_target, if_pos hcond, cToF]; norm_num
  refine ⟨ht, ?_⟩
  have hr : roundHalfEven (10 * (140 : ℚ)) = 1400 := by
    rw [roundHalfEven]
    norm_num
  rw [climate_set_temperature_wire, ht, set_temperature_command, formatFix1, hr,
    command_with_terminator]
  decide

/-- Counterexample to claim C3 as stated. The claim says the accumulated
text is declared the complete response *only when* no fragment arrived
within the silence window since the last fragment and the minimum wait
has passed. But when a fragment is accumulated without its arrival being
observed by the event wait (handler running between the wait timeout
firing and the loop resuming, so `last_data_time` is still `None`,
lines 307-313), a non-status exchange declares completion after only the
minimum wait: here completion is declared 0.6 time units after the
command was sent, although the silence window is 1.0 — no fragment of
this exchange can have been silent for 1.0. -/
theorem C3_completion_without_silence_counterexample :
    run_wait false 10 0 WaitState.init [.lateFrag "ok", .tick (3/5)] =
      some (.complete "ok", ⟨⟨["ok"], some "ok"⟩, none⟩, 3/5) ∧
    (3/5 : ℚ) - 0 < no_data_timeout false ∧
    (3/5 : ℚ) - 0 ≥ min_wait_time false := by
  have hacc : applyLateFrag WaitState.init "ok" = ⟨⟨["ok"], some "ok"⟩, none⟩ := by
    rw [applyLateFrag]
    rw [show notification_handler WaitState.init.acc "ok" =
      (⟨["ok"], some "ok"⟩ : Accumulator) by decide]
    rfl
  have htick : send_tick false 10 0 (some "ok") none (3/5) = .complete "ok" := by
    rw [send_tick]
    show (if ("ok" : String) ≠ "" then
        (if (3/5 : ℚ) - 0 ≥ min_wait_time false ∧ ¬ (false = true) then
          TickOutcome.complete "ok"
        else (if (3/5 : ℚ) - 0 ≥ 10 then TickOutcome.truncated "ok"
          else .waiting))
      else (if (3/5 : ℚ) - 0 ≥ 10 then TickOutcome.truncated "ok"
        else .waiting)) = .complete "ok"
    rw [if_pos (by decide), if_pos ⟨by norm_num [min_wait_time], by simp⟩]
  refine ⟨?_, by norm_num [no_data_timeout], by norm_num [min_wait_time]⟩
  rw [run_wait, hacc, run_wait]
  show (if send_tick false 10 0 (some "ok") none (3/5) = .waiting then
    run_wait false 10 0 ⟨⟨["ok"], some "ok"⟩, none⟩ [] else
    some (send_tick false 10 0 (some "ok") none (3/5),
      (⟨⟨["ok"], some "ok"⟩, none⟩ : WaitState), 3/5)) = _
  rw [htick, if_neg (by decide)]

/-- Claim C3, amended. The completion heuristic uses a 3.0 silence window
and 1.5 minimum wait for the status command and 1.0 / 0.5 for all other
commands. Whenever a last-fragment arrival time has been recorded, the
accumulated text is declared the complete response exactly when no
fragment arrived within the silence window since that recorded arrival
AND the minimum total elapsed time has passed. When data was accumulated
without any arrival time being recorded (a notification landing between
the event-wait timeout and the loop's resumption), a non-status command
declares completion once the minimum wait alone has passed, with no
silence-window check, and a status command keeps waiting. -/
theorem C3_completion_heuristic_thresholds :
    (no_data_timeout true = 3 ∧ no_data_timeout false = 1 ∧
      min_wait_time true = 3/2 ∧ min_wait_time false = 1/2) ∧
    (∀ (is_status : Bool) (timeout start : ℚ) (d : String) (l now : ℚ),
      d ≠ "" →
      (send_tick is_status timeout start (some d) (some l) now = .complete d ↔
        now - l ≥ no_data_timeout is_status ∧
          now - start ≥ min_wait_time is_status)) ∧
    (∀ (is_status : Bool) (timeout start : ℚ) (d : String) (now : ℚ),
      d ≠ "" →
      (send_tick is_status timeout start (some d) none now = .complete d ↔
        now - start ≥ min_wait_time is_status ∧ is_status = false)) ∧
    (∀ (is_status : Bool) (timeout start : ℚ) (evs : List LoopEv)
        (st : WaitState) (t : ℚ) (r : String),
      run_wait is_status timeout start WaitState.init evs =
          some (.complete r, st, t) →
      st.acc.response_data = some r ∧ r ≠ "" ∧
      (∀ l, st.last_data_time = some l →
        t - l ≥ no_data_timeout is_status ∧
          t - start ≥ min_wait_time is_status) ∧
      (st.last_data_time = none →
        t - start ≥ min_wait_time is_status ∧ is_status = false)) := by
  refine ⟨by norm_num [no_data_timeout, min_wait_time], ?_, ?_, ?_⟩
  · intro is_status timeout start d l now hd
    constructor
    · intro h
      obtain ⟨-, -, hcase⟩ := (send_tick_cases is_status timeout start
        (some d) (some l) now).1 d h
      rcases hcase with ⟨l', hl', h1, h2⟩ | ⟨hnone, -⟩
      · rw [Option.some_inj] at hl'
        rw [hl']
        exact ⟨h1, h2⟩
      · cases hnone
    · rintro ⟨h1, h2⟩
      rw [send_tick]
      simp [hd, h1, h2]
  · intro is_status timeout start d now hd
    constructor
    · intro h
      obtain ⟨-, -, hcase⟩ := (send_tick_cases is_status timeout start
        (some d) none now).1 d h
      rcases hcase with ⟨l', hl', -, -⟩ | ⟨-, h1, h2⟩
      · cases hl'
      · exact ⟨h1, h2⟩
    · rintro ⟨h1, h2⟩
      subst h2
      rw [send_tick]
      simp [hd, h1]
  · intro is_status timeout start evs st t r h
    obtain ⟨hinv, heq, -⟩ := run_wait_spec is_status timeout start evs
      WaitState.init accInv_empty _ st t h
    obtain ⟨hrd, hrne, hcase⟩ := (send_tick_cases is_status timeout start
      st.acc.response_data st.last_data_time t).1 r heq.symm
    refine ⟨hrd, hrne, ?_, ?_⟩
    · intro l hl
      rcases hcase with ⟨l', hl', h1, h2⟩ | ⟨hnone, -⟩
      · rw [hl] at hl'
        rw [Option.some_inj] at hl'
        rw [← hl'] at h1
        exact ⟨h1, h2⟩
      · rw [hl] at hnone; cases hnone
    · intro hln
      rcases hcase with ⟨l', hl', -, -⟩ | ⟨-, h1, h2⟩
      · rw [hln] at hl'; cases hl'
      · exact ⟨h1, h2⟩

/-- Witness for C3: a concrete non-status exchange with a recorded
arrival time where the silence window (1.0) and minimum wait (0.5) have
both passed declares the accumulated text complete. -/
theorem C3_completion_heuristic_thresholds_witness :
    send_tick false 10 0 (some "ok") (some 0) 2 = .complete "ok" :=
  (C3_completion_heuristic_thresholds.2.1 false 10 0 "ok" 0 2
    (by decide)).mpr ⟨by norm_num [no_data_timeout], by norm_num [min_wait_time]⟩

/-- Claim C4. Whatever way the locked exchange of `_send_command` resolves
(returned text, fallback read that may itself fail, or an exception), the
`finally` clause leaves `_response_event`, `_response_data` and
`_response_parts` cleared. -/
theorem C4_exchange_state_cleared_on_exit :
    ∀ (st : ClientState) (acc : Accumulator) (res : ExchangeResolution),
      (send_command_locked st acc res).2.response_event = none ∧
      (send_command_locked st acc res).2.response_data = none ∧
      (send_command_locked st acc res).2.response_parts = [] := by
  intro st acc res
  cases res <;> simp [send_command_locked, send_command_try, send_command_finally]

/-- Claim C5. The notification handler is idempotent on duplicate
payloads: re-delivering a payload (immediately or later) leaves the
accumulator unchanged, and the accumulated state is exactly the distinct
stripped non-empty fragments in first-arrival order, joined by newline. -/
theorem C5_fragment_dedup_idempotent :
    (∀ (acc : Accumulator) (d : String),
      notification_handler (notification_handler acc d) d =
        notification_handler acc d) ∧
    (∀ (ps₁ ps₂ : List String) (d : String),
      feed Accumulator.empty (ps₁ ++ d :: ps₂ ++ [d]) =
        feed Accumulator.empty (ps₁ ++ d :: ps₂)) ∧
    (∀ ps : List String,
      (feed Accumulator.empty ps).response_parts = firstDistinct (cleaned ps)) ∧
    (∀ ps : List String,
      (feed Accumulator.empty ps).response_data =
        if cleaned ps = [] then none
        else some (String.intercalate "\n" (firstDistinct (cleaned ps)))) := by
  have dupNoop : ∀ (ps : List String) (d : String), d ∈ ps →
      notification_handler (feed Accumulator.empty ps) d =
        feed Accumulator.empty ps := by
    intro ps d hd
    by_cases h1 : pyStrip d = ""
    · exact notification_handler_noop _ d (Or.inl h1)
    · apply notification_handler_noop _ d
      right
      rw [feed_empty_parts, mem_firstDistinct]
      rw [cleaned, List.mem_filter]
      refine ⟨List.mem_map_of_mem pyStrip hd, by simpa using h1⟩
  refine ⟨?_, ?_, feed_empty_parts, ?_⟩
  · intro acc d
    by_cases h1 : pyStrip d = ""
    · rw [notification_handler_noop acc d (Or.inl h1)]
      exact notification_handler_noop acc d (Or.inl h1)
    · by_cases h2 : pyStrip d ∈ acc.response_parts
      · rw [notification_handler_noop acc d (Or.inr h2)]
        exact notification_handler_noop acc d (Or.inr h2)
      · rw [notification_handler_eq_append acc d h1 h2]
        apply notification_handler_noop
        right
        simp
  · intro ps₁ ps₂ d
    rw [show ps₁ ++ d :: ps₂ ++ [d] = (ps₁ ++ d :: ps₂) ++ [d] by simp]
    rw [feed, List.foldl_append]
    exact dupNoop (ps₁ ++ d :: ps₂) d (by simp)
  · intro ps
    have hinv := feed_data_inv ps Accumulator.empty (Or.inl ⟨rfl, rfl⟩)
    rw [feed_empty_parts] at hinv
    by_cases hnil : cleaned ps = []
    · rw [if_pos hnil]
      rcases hinv with ⟨-, h⟩ | ⟨hne, -⟩
      · exact h
      · exact absurd ((firstDistinct_eq_nil_iff _).mpr hnil) hne
    · rw [if_neg hnil]
      rcases hinv with ⟨hn, -⟩ | ⟨-, h⟩
      · exact absurd ((firstDistinct_eq_nil_iff _).mp hn) hnil
      · rw [← feed_empty_parts]
        rw [h, feed_empty_parts]

/-- Claim C6. When the overall per-command timeout elapses with nothing
accumulated, the loop breaks to exactly one direct characteristic read,
whose decoded stripped text is the command's result (`none` only if that
read also failed); when something was accumulated, the partial text itself
is returned with no direct read. -/
theorem C6_zero_fragment_timeout_direct_read_fallback :
    ∀ (is_status : Bool) (timeout start : ℚ) (evs : List LoopEv)
      (st : WaitState) (t : ℚ) (read : Option String),
    (run_wait is_status timeout start WaitState.init evs =
        some (.fallback, st, t) →
      st.acc.response_data = none ∧ st.acc.response_parts = [] ∧
      t - start ≥ timeout ∧
      send_command_wait_result is_status timeout start evs read =
        some (read.map pyStrip, 1) ∧
      (∀ s, read = some s →
        send_command_wait_result is_status timeout start evs read =
          some (some (pyStrip s), 1)) ∧
      (read = none →
        send_command_wait_result is_status timeout start evs read =
          some (none, 1))) ∧
    (∀ r, run_wait is_status timeout start WaitState.init evs =
        some (.truncated r, st, t) →
      st.acc.response_data = some r ∧ st.acc.response_parts ≠ [] ∧ r ≠ "" ∧
      t - start ≥ timeout ∧
      send_command_wait_result is_status timeout start evs read =
        some (some r, 0)) := by
  intro is_status timeout start evs st t read
  constructor
  · intro h
    obtain ⟨hinv, heq, -⟩ := run_wait_spec is_status timeout start evs
      WaitState.init accInv_empty _ st t h
    obtain ⟨hrd, htime⟩ := (send_tick_cases is_status timeout start
      st.acc.response_data st.last_data_time t).2.2 heq.symm
    have hnone : st.acc.response_data = none := by
      rcases hrd with hrd | hrd
      · exact hrd
      · exact absurd rfl (accInv_data_ne_empty st.acc hinv "" hrd)
    have hres : send_command_wait_result is_status timeout start evs read =
        some (read.map pyStrip, 1) := by
      rw [send_command_wait_result, h]
    refine ⟨hnone, accInv_data_none st.acc hinv hnone, htime, hres, ?_, ?_⟩
    · intro s hs
      rw [hres, hs, Option.map_some']
    · intro hs
      rw [hres, hs, Option.map_none']
  · intro r h
    obtain ⟨hinv, heq, -⟩ := run_wait_spec is_status timeout start evs
      WaitState.init accInv_empty _ st t h
    obtain ⟨hrd, hrne, htime⟩ := (send_tick_cases is_status timeout start
      st.acc.response_data st.last_data_time t).2.1 r heq.symm
    have hparts : st.acc.response_parts ≠ [] := by
      intro hp
      rcases hinv with ⟨-, hn⟩ | ⟨hne, -, -⟩
      · rw [hn] at hrd; cases hrd
      · exact hne hp
    refine ⟨hrd, hparts, hrne, htime, ?_⟩
    rw [send_command_wait_result, h]

/-- Claim C7. With the client not connected, `_send_command` makes exactly
one reconnect attempt (`connect(retries=1, timeout=5.0)`) and, if it
fails, returns `None` without writing the command; the command is written
at most once in every case. -/
theorem C7_single_reconnect_then_fail :
    reconnectRetries = 1 ∧ reconnectTimeout = 5 ∧
    (∀ exchange : Option String, send_command_entry false false exchange =
      { reconnect_calls := 1, command_writes := 0, result := none }) ∧
    (∀ (c r : Bool) (exchange : Option String),
      (send_command_entry c r exchange).reconnect_calls = if c then 0 else 1) ∧
    (∀ (c r : Bool) (exchange : Option String),
      (send_command_entry c r exchange).command_writes ≤ 1) := by
  refine ⟨rfl, rfl, fun e => rfl, fun c r e => ?_, fun c r e => ?_⟩ <;>
    unfold send_command_entry <;> split_ifs <;> simp

/-- Claim C8. The manual config-flow address input is accepted exactly
when, after removing `:`, `-` and spaces (and uppercasing), it consists of
exactly 12 hexadecimal digits; every accepted input is stored as six
colon-separated uppercase hex byte pairs. -/
theorem C8_manual_address_validation :
    (∀ address : String, (async_step_manual_validate address).isSome ↔
      ((cleanAddress address).length = 12 ∧
        ∀ c ∈ cleanAddress address, c ∈ HEXDIGITS)) ∧
    (∀ (address canon : String), async_step_manual_validate address = some canon →
      ∃ x1 x2 x3 x4 x5 x6 x7 x8 x9 x10 x11 x12,
        cleanAddress address = [x1, x2, x3, x4, x5, x6, x7, x8, x9, x10, x11, x12] ∧
        (∀ x ∈ cleanAddress address, x ∈ HEXDIGITS) ∧
        canon = String.mk [x1, x2, ':', x3, x4, ':', x5, x6, ':', x7, x8, ':',
          x9, x10, ':', x11, x12]) := by
  have hmem : ∀ (c : Char), (HEXDIGITS.contains c = true) ↔ c ∈ HEXDIGITS := by
    intro c
    exact List.elem_iff
  constructor
  · intro address
    rw [async_step_manual_validate]
    split_ifs with h1 h2
    · refine iff_of_false (by decide) ?_
      rintro ⟨hlen, -⟩
      rcases h1 with h1 | h1
      · rw [h1] at hlen; simp at hlen
      · exact absurd hlen h1
    · refine iff_of_true rfl ?_
      push_neg at h1
      rw [List.all_eq_true] at h2
      exact ⟨h1.2, fun c hc => (hmem c).mp (h2 c hc)⟩
    · refine iff_of_false (by decide) ?_
      rintro ⟨-, hall⟩
      apply h2
      rw [List.all_eq_true]
      exact fun c hc => (hmem c).mpr (hall c hc)
  · intro address canon h
    by_cases h1 : cleanAddress address = [] ∨ (cleanAddress address).length ≠ 12
    · rw [async_step_manual_validate, if_pos h1] at h
      exact absurd h (by simp)
    by_cases h2 : (cleanAddress address).all (fun c => HEXDIGITS.contains c) = true
    · rw [async_step_manual_validate, if_neg h1, if_neg (not_not_intro h2)] at h
      push_neg at h1
      rw [List.all_eq_true] at h2
      obtain ⟨-, hlen⟩ := h1
      rcases hc : cleanAddress address with
        _ | ⟨x1, _ | ⟨x2, _ | ⟨x3, _ | ⟨x4, _ | ⟨x5, _ | ⟨x6, _ | ⟨x7, _ | ⟨x8,
          _ | ⟨x9, _ | ⟨x10, _ | ⟨x11, _ | ⟨x12, _ | ⟨x13, rest⟩⟩⟩⟩⟩⟩⟩⟩⟩⟩⟩⟩⟩ <;>
        rw [hc] at hlen <;> simp at hlen
      rw [hc] at h
      rw [Option.some_inj] at h
      refine ⟨x1, x2, x3, x4, x5, x6, x7, x8, x9, x10, x11, x12, rfl,
        fun x hx => (hmem x).mp (h2 x (by rw [hc]; exact hx)), ?_⟩
      rw [← h]
      apply String.ext
      simp [chunkPairs, String.intercalate, String.intercalate.go]
    · rw [async_step_manual_validate, if_neg h1, if_pos h2] at h
      exact absurd h (by simp)

/-- Witness for C8: a lowercase, colon-free 12-hex-digit input is
accepted. -/
theorem C8_manual_address_validation_witness :
    (async_step_manual_validate "aabbccddeeff").isSome = true :=
  (C8_manual_address_validation.1 "aabbccddeeff").mpr (by decide)

/-- Claim C9. A temperature reply is stripped to digits, `.` and `-`,
parsed as a decimal, converted via `(v-32)*5/9` exactly when the cached
unit is Fahrenheit, and a non-numeric reply leaves the field unset:
decoding `"22.5"` yields 22.5 under Celsius and `(22.5-32)*5/9` under
Fahrenheit. -/
theorem C9_temperature_reply_decode :
    parse_response [(STATUS_UNITS, .str "C")] CMD_READ_TARGET_TEMP "22.5"
      = [(STATUS_TARGET_TEMP, .num (45/2))] ∧
    parse_response [(STATUS_UNITS, .str "F")] CMD_READ_TARGET_TEMP "22.5"
      = [(STATUS_TARGET_TEMP, .num ((45/2 - 32) * 5 / 9))] ∧
    (∀ (st : StatusDict) (resp : String) (v : ℚ),
      pyFloat (stripNonNumeric (pyStrip resp)) = some v →
      parse_response st CMD_READ_TARGET_TEMP resp
        = [(STATUS_TARGET_TEMP,
            .num (if dictGet st STATUS_UNITS = some (.str "F") then fToC v else v))] ∧
      parse_response st CMD_READ_CURRENT_TEMP resp
        = [(STATUS_TEMP,
            .num (if dictGet st STATUS_UNITS = some (.str "F") then fToC v else v))]) ∧
    (∀ (st : StatusDict) (resp : String),
      pyFloat (stripNonNumeric (pyStrip resp)) = none →
      parse_response st CMD_READ_TARGET_TEMP resp = [] ∧
      parse_response st CMD_READ_CURRENT_TEMP resp = []) := by
  refine ⟨?_, ?_,
    fun st resp v h => ⟨parse_target_some st resp v h, parse_current_some st resp v h⟩,
    fun st resp h => ⟨parse_target_none st resp h, parse_current_none st resp h⟩⟩
  · rw [parse_target_some _ _ _ pyFloat_225]
    rw [if_neg (by decide)]
  · rw [parse_target_some _ _ _ pyFloat_225]
    rw [if_pos (by decide)]
    rfl

/-- Witness for C9: a non-numeric reply leaves the target-temperature
field unset. -/
theorem C9_temperature_reply_decode_witness :
    parse_response [] CMD_READ_TARGET_TEMP "abc" = [] :=
  (C9_temperature_reply_decode.2.2.2 [] "abc" (by decide)).1

/-- Claim C10. `get_status` (reachable or not) and the `status` property
return a freshly allocated copy of the cached dict with equal contents;
mutating the returned dict does not change the client's cache. -/
theorem C10_status_returns_fresh_copy (h : Heap) (r : ℕ) (reachable : Bool)
    (updates : StatusDict) (k : String) (v : StatusVal)
    (hr : r < h.cells.length) :
    (get_status_model h r reachable updates).2 ≠ r ∧
    ((get_status_model h r reachable updates).1.setKey
        (get_status_model h r reachable updates).2 k v).get r =
      (get_status_model h r reachable updates).1.get r ∧
    (get_status_model h r reachable updates).1.get
        (get_status_model h r reachable updates).2 =
      (get_status_model h r reachable updates).1.get r ∧
    (status_property h r).2 ≠ r ∧
    ((status_property h r).1.setKey (status_property h r).2 k v).get r =
      (status_property h r).1.get r ∧
    (status_property h r).1.get (status_property h r).2 =
      (status_property h r).1.get r := by
  have key : ∀ (g : Heap), r < g.cells.length →
      (g.copyAlloc r).2 ≠ r ∧
      ((g.copyAlloc r).1.setKey (g.copyAlloc r).2 k v).get r =
        (g.copyAlloc r).1.get r ∧
      (g.copyAlloc r).1.get (g.copyAlloc r).2 = (g.copyAlloc r).1.get r := by
    intro g hg
    refine ⟨by simp [Heap.copyAlloc]; omega, ?_, ?_⟩
    · simp only [Heap.copyAlloc, Heap.setKey, Heap.get,
        List.getD_eq_getElem?_getD]
      rw [List.getElem?_set_ne (by omega)]
    · simp only [Heap.copyAlloc, Heap.get, List.getD_eq_getElem?_getD]
      rw [List.getElem?_concat_length, List.getElem?_append_left hg]
      simp [Heap.get, List.getD_eq_getElem?_getD]
  cases reachable with
  | false =>
      have h1 := key h hr
      simp only [get_status_model, Bool.false_eq_true, if_false] at *
      exact ⟨h1.1, h1.2.1, h1.2.2, (key h hr).1, (key h hr).2.1, (key h hr).2.2⟩
  | true =>
      have hlen : r < (Heap.mk
          (h.cells.set r (dictUpdate (h.get r) updates))).cells.length := by
        simpa using hr
      have h1 := key _ hlen
      have h2 := key h hr
      simp only [get_status_model, if_true, status_property]
      exact ⟨h1.1, h1.2.1, h1.2.2, h2.1, h2.2.1, h2.2.2⟩

/-- Witness for C10: on a one-cell heap the returned reference is fresh. -/
theorem C10_status_returns_fresh_copy_witness :
    (get_status_model ⟨[[]]⟩ 0 false [] ).2 ≠ 0 :=
  (C10_status_returns_fresh_copy ⟨[[]]⟩ 0 false [] "k" (.str "v")
    (by decide)).1

end Anova

namespace Anova

/-- Witness for C6: a run that times out with nothing accumulated resolves
through one direct read. -/
theorem C6_zero_fragment_timeout_direct_read_fallback_witness :
    send_command_wait_result false 10 0 [LoopEv.tick 10] (some "hi") =
      some (some (pyStrip "hi"), 1) := by
  have htick : send_tick false 10 0 none none 10 = .fallback := by
    rw [send_tick]
    show (if (10:ℚ) - 0 ≥ 10 then TickOutcome.fallback else .waiting) = .fallback
    rw [if_pos (by norm_num)]
  have hrun : run_wait false 10 0 WaitState.init [LoopEv.tick 10] =
      some (.fallback, WaitState.init, 10) := by
    rw [run_wait]
    show (if send_tick false 10 0 none none 10 = .waiting then
      run_wait false 10 0 WaitState.init [] else
      some (send_tick false 10 0 none none 10, WaitState.init, 10)) = _
    rw [htick, if_neg (by decide)]
  exact ((C6_zero_fragment_timeout_direct_read_fallback false 10 0
    [LoopEv.tick 10] WaitState.init 10 (some "hi")).1 hrun).2.2.2.2.1 "hi" rfl

end Anova
